import Mathlib

/-!
Verification of the runtime shape-validating predicates of the `ts-guide`
repository (file `src/interfaceTS.ts`): the type guards `order`, `isUser`
and `isString`, their buggy trailing duplicates, and the caller
`orderDelivery`.

JavaScript runtime values are modelled by the inductive `JSValue`:
the primitives relevant to the source (strings, numbers, booleans, `null`,
`undefined`) and composites (`object b fields`, where `b` records whether
the composite is an array; in JavaScript an array is an object whose
elements and extra properties are all properties, and `typeof` on an array
is "object"). Property access `o.f` is `getField`, the `in` operator is
`hasField`, property assignment is `setField`, and `typeof` is `typeof`.
Property access on `null` or `undefined` throws in JavaScript; the total
function `getField` returns `undefined` there (it is only used where the
source guards the access), while the faulting behaviour is captured by
`getFieldE` and the `Except`-valued evaluators built on it.
-/

namespace TsGuide

inductive JSValue : Type where
  | str : String → JSValue
  | num : Int → JSValue
  | bool : Bool → JSValue
  | null : JSValue
  | undefined : JSValue
  | object : Bool → List (String × JSValue) → JSValue

/-- The JavaScript `typeof` operator on the modelled values. Note the
JavaScript quirk that `typeof null` is "object". -/
def typeof : JSValue → String
  | .str _ => "string"
  | .num _ => "number"
  | .bool _ => "boolean"
  | .null => "object"
  | .undefined => "undefined"
  | .object _ _ => "object"

/-- The check `v !== null` of the source. -/
def notNull : JSValue → Bool
  | .null => false
  | _ => true

/-- Property read `v.name`, total: absent properties and property reads on
primitives yield `undefined` (faults are in `getFieldE`). -/
def getField : JSValue → String → JSValue
  | .object _ fields, name => (fields.lookup name).getD JSValue.undefined
  | _, _ => JSValue.undefined

/-- The JavaScript `in` operator: does the composite own the property. -/
def hasField : JSValue → String → Bool
  | .object _ fields, name => (fields.lookup name).isSome
  | _, _ => false

/-- Property assignment `v.name = w`: on a composite it binds `name` to `w`
(the new binding shadows an older one); on primitives it is the sloppy-mode
no-op. -/
def setField : JSValue → String → JSValue → JSValue
  | .object isArr fields, name, w => .object isArr ((name, w) :: fields)
  | v, _, _ => v

/-- The `Array.isArray` test on the modelled values. -/
def isArrayValue : JSValue → Bool
  | .object isArr _ => isArr
  | _ => false

/-- Property read with the JavaScript fault: reading a property of `null`
or `undefined` throws a `TypeError`. -/
def getFieldE : JSValue → String → Except String JSValue
  | .null, _ => .error ("TypeError: cannot read properties of null")
  | .undefined, _ => .error ("TypeError: cannot read properties of undefined")
  | v, name => .ok (getField v name)

/-- The JavaScript string conversion used by template literals, on the
modelled values. Composite conversion is modelled by the default
`[object Object]` (no claim depends on the conversion of a composite). -/
def jsToString : JSValue → String
  | .str s => s
  | .num n => toString n
  | .bool b => if b then "true" else "false"
  | .null => "null"
  | .undefined => "undefined"
  | .object _ _ => "[object Object]"

/-- The exported type guard `order` of `src/interfaceTS.ts` (lines 339 to
350): `typeof obj === "object" && obj !== null` and then `typeof` checks of
the five `UserOrder` fields, `type`, `id`, `delivery` as strings and
`price`, `quantity` as numbers. -/
def order (obj : JSValue) : Bool :=
  typeof obj == "object" &&
  notNull obj &&
  typeof (getField obj ("type")) == "string" &&
  typeof (getField obj ("id")) == "string" &&
  typeof (getField obj ("delivery")) == "string" &&
  typeof (getField obj ("price")) == "number" &&
  typeof (getField obj ("quantity")) == "number"

/-- The near-duplicate copy of `order` in the unnamed trailing copy of the
file (lines 776 to 784): it checks `id` as a number and omits the `price`
and `quantity` checks. -/
def orderDup (obj : JSValue) : Bool :=
  typeof obj == "object" &&
  notNull obj &&
  typeof (getField obj ("type")) == "string" &&
  typeof (getField obj ("id")) == "number" &&
  typeof (getField obj ("delivery")) == "string"

/-- The exported type guard `isUser` (lines 633 to 644): object and
non-null checks, then for each of `name`, `email`, `age` an `in` presence
check followed by a `typeof` check. -/
def isUser (obj : JSValue) : Bool :=
  typeof obj == "object" &&
  notNull obj &&
  hasField obj ("name") && typeof (getField obj ("name")) == "string" &&
  hasField obj ("email") && typeof (getField obj ("email")) == "string" &&
  hasField obj ("age") && typeof (getField obj ("age")) == "number"

/-- The exported guard `isString` (lines 472 to 476): a `typeof` check. -/
def isString (s : JSValue) : Bool :=
  typeof s == "string"

/-- The duplicate `isString` of the unnamed trailing copy (lines 821 to
823), whose body is `return isString(str);`, an unconditional self-call
with the same argument. Modelled with explicit fuel: each unit of fuel
funds one call, `none` means the computation has not returned. -/
def isStringDup : Nat → JSValue → Option Bool
  | 0, _ => none
  | fuel + 1, s => isStringDup fuel s

/-- The faultable evaluation of `order`, translating the short-circuit
`&&` chain of lines 339 to 350 with the property reads allowed to throw. -/
def orderE (obj : JSValue) : Except String Bool :=
  if typeof obj == "object" then
    if notNull obj then
      match getFieldE obj ("type") with
      | .error e => .error e
      | .ok t =>
        if typeof t == "string" then
          match getFieldE obj ("id") with
          | .error e => .error e
          | .ok i =>
            if typeof i == "string" then
              match getFieldE obj ("delivery") with
              | .error e => .error e
              | .ok d =>
                if typeof d == "string" then
                  match getFieldE obj ("price") with
                  | .error e => .error e
                  | .ok p =>
                    if typeof p == "number" then
                      match getFieldE obj ("quantity") with
                      | .error e => .error e
                      | .ok q => .ok (typeof q == "number")
                    else .ok false
                else .ok false
            else .ok false
        else .ok false
      else .ok false
  else .ok false

/-- The exported `orderDelivery` (lines 352 to 363): branch on the guard
`order`; on success return the delivery template string, otherwise the
fallback template string. -/
def orderDelivery (item : JSValue) : String :=
  if order item then
    "Delivering " ++ jsToString (getField item ("id")) ++ " of type: " ++
      jsToString (getField item ("type")) ++ " with Delivery " ++
      jsToString (getField item ("delivery"))
  else
    "Cannot deliver: " ++ jsToString item

/-- The faultable evaluation of `orderDelivery`: the guard evaluated by
`orderE`, and on the success branch the three property reads of the
template may throw. -/
def orderDeliveryE (item : JSValue) : Except String JSValue :=
  match orderE item with
  | .error e => .error e
  | .ok g =>
    if g then
      match getFieldE item ("id") with
      | .error e => .error e
      | .ok i =>
        match getFieldE item ("type") with
        | .error e => .error e
        | .ok t =>
          match getFieldE item ("delivery") with
          | .error e => .error e
          | .ok d =>
            .ok (JSValue.str ("Delivering " ++ jsToString i ++ " of type: " ++
              jsToString t ++ " with Delivery " ++ jsToString d))
    else .ok (JSValue.str ("Cannot deliver: " ++ jsToString item))

/-- The expected primitive kinds of a `RecordShape` field (spec section 3). -/
inductive Kind : Type where
  | str : Kind
  | num : Kind
  | bool : Kind
deriving DecidableEq

/-- The `typeof` string of an expected kind. -/
def kindName : Kind → String
  | .str => "string"
  | .num => "number"
  | .bool => "boolean"

/-- A `RecordShape` of the spec: field names with expected primitive kinds. -/
abbrev RecordShape := List (String × Kind)

/-- The contract `is_shape(candidate, shape)` of spec section 4.1, written
by generalizing the code pattern of `order` over the shape: the object and
non-null checks, then a `typeof` check of every required field. This is the
spec-facing definition; the lemma `order_eq_is_shape` below ties the source
guard `order` to it at the `UserOrder` shape. -/
def is_shape (candidate : JSValue) (shape : RecordShape) : Bool :=
  typeof candidate == "object" &&
  notNull candidate &&
  shape.all (fun f => typeof (getField candidate f.1) == kindName f.2)

/-- The faultable run of the required-field checks of `is_shape`, with the
property reads allowed to throw. -/
def checkFieldsE (candidate : JSValue) : RecordShape → Except String Bool
  | [] => .ok true
  | f :: rest =>
    match getFieldE candidate f.1 with
    | .error e => .error e
    | .ok v =>
      if typeof v == kindName f.2 then checkFieldsE candidate rest else .ok false

/-- The faultable evaluation of `is_shape`, short-circuiting like the
source `&&` chain. -/
def is_shapeE (candidate : JSValue) (shape : RecordShape) : Except String Bool :=
  if typeof candidate == "object" then
    if notNull candidate then checkFieldsE candidate shape
    else .ok false
  else .ok false

/-- The `UserOrder` shape of the source (lines 322 to 328): `id`, `type`,
`delivery` strings and `price`, `quantity` numbers, listed in the order the
guard `order` checks them. -/
def userOrderShape : RecordShape :=
  [("type", Kind.str), ("id", Kind.str), ("delivery", Kind.str),
   ("price", Kind.num), ("quantity", Kind.num)]

/-- The `User` shape of the source (lines 627 to 631): `name`, `email`
strings and `age` a number. -/
def userShape : RecordShape :=
  [("name", Kind.str), ("email", Kind.str), ("age", Kind.num)]

/-- The sample valid order of the source comments (line 366): a plain
record with the five required fields well-kinded, `id` a string. -/
def sampleOrder : JSValue :=
  JSValue.object false
    [("id", JSValue.str "123"), ("type", JSValue.str "express"),
     ("price", JSValue.num 100), ("quantity", JSValue.num 1),
     ("delivery", JSValue.str "fast")]

/-- An array carrying the same five well-kinded required fields as named
properties (in JavaScript, array properties are ordinary properties). -/
def sampleArrayOrder : JSValue :=
  JSValue.object true
    [("id", JSValue.str "123"), ("type", JSValue.str "express"),
     ("price", JSValue.num 100), ("quantity", JSValue.num 1),
     ("delivery", JSValue.str "fast")]

/-- A record missing the required `delivery` field. -/
def sampleMissingDelivery : JSValue :=
  JSValue.object false
    [("id", JSValue.str "123"), ("type", JSValue.str "express"),
     ("price", JSValue.num 100), ("quantity", JSValue.num 1)]

/-- A record whose required `price` field holds the numeric string "100"
instead of a number. -/
def sampleStringPrice : JSValue :=
  JSValue.object false
    [("id", JSValue.str "123"), ("type", JSValue.str "express"),
     ("price", JSValue.str "100"), ("quantity", JSValue.num 1),
     ("delivery", JSValue.str "fast")]

/-!
A heap-based model for the effect claims: composites live in a mutable
store, values are references (`JSRef`), and each primitive operation
threads the store. `readField` is the property read and `writeField` the
property write; `orderH` is the guard of lines 339 to 350 translated over
this store-threading semantics, so that leaving the store unchanged is a
statement about the translation, not a typing accident.
-/

inductive JSRef : Type where
  | str : String → JSRef
  | num : Int → JSRef
  | bool : Bool → JSRef
  | null : JSRef
  | undefined : JSRef
  | addr : Nat → JSRef

/-- A stored composite: the array flag and the property bindings. -/
structure HeapObj : Type where
  isArray : Bool
  fields : List (String × JSRef)

/-- The store: addresses bound to composites. -/
abbrev Heap := List (Nat × HeapObj)

/-- `typeof` over references. -/
def typeofR : JSRef → String
  | .str _ => "string"
  | .num _ => "number"
  | .bool _ => "boolean"
  | .null => "object"
  | .undefined => "undefined"
  | .addr _ => "object"

/-- The check `v !== null` over references. -/
def notNullR : JSRef → Bool
  | .null => false
  | _ => true

/-- Property read over the store: reads of `null` and `undefined` throw,
reads of other primitives and of dangling or absent bindings yield
`undefined`; the store is returned alongside the result. -/
def readField (h : Heap) (r : JSRef) (name : String) :
    Except String JSRef × Heap :=
  match r with
  | .null => (.error ("TypeError: cannot read properties of null"), h)
  | .undefined => (.error ("TypeError: cannot read properties of undefined"), h)
  | .addr a =>
    match h.lookup a with
    | some o => (.ok ((o.fields.lookup name).getD JSRef.undefined), h)
    | none => (.ok JSRef.undefined, h)
  | _ => (.ok JSRef.undefined, h)

/-- Property write over the store: the mutation the model supports and the
validator never performs. -/
def writeField (h : Heap) (r : JSRef) (name : String) (w : JSRef) :
    Except String JSRef × Heap :=
  match r with
  | .null => (.error ("TypeError: cannot set properties of null"), h)
  | .undefined => (.error ("TypeError: cannot set properties of undefined"), h)
  | .addr a =>
    match h.lookup a with
    | some o =>
      (.ok w, h.map (fun p =>
        if p.1 = a then (a, HeapObj.mk o.isArray ((name, w) :: o.fields)) else p))
    | none => (.ok w, h)
  | _ => (.ok w, h)

/-- The required-field checks of the guard run over the store, each read
threading the store it received. -/
def checkFieldsH (h : Heap) (obj : JSRef) :
    List (String × String) → Except String Bool × Heap
  | [] => (.ok true, h)
  | c :: rest =>
    match readField h obj c.1 with
    | (.error e, h1) => (.error e, h1)
    | (.ok v, h1) =>
      if typeofR v == c.2 then checkFieldsH h1 obj rest else (.ok false, h1)

/-- The guard `order` (lines 339 to 350) translated over the
store-threading semantics. -/
def orderH (h : Heap) (obj : JSRef) : Except String Bool × Heap :=
  if typeofR obj == "object" then
    if notNullR obj then
      checkFieldsH h obj
        [("type", "string"), ("id", "string"), ("delivery", "string"),
         ("price", "number"), ("quantity", "number")]
    else (.ok false, h)
  else (.ok false, h)

/-! Helper lemmas shared by the claim theorems. -/

theorem kindName_ne_undefined (k : Kind) : kindName k ≠ "undefined" := by
  cases k <;> decide

/-- A required field whose `typeof` matches an expected kind is present:
absent fields read as `undefined`, whose `typeof` matches no kind. -/
theorem hasField_of_kind (v : JSValue) (name : String) (k : Kind)
    (h : typeof (getField v name) = kindName k) : hasField v name = true := by
  cases v with
  | object isArr fields =>
    cases hl : fields.lookup name with
    | none =>
      simp only [getField, hl, Option.getD] at h
      exact absurd h.symm (kindName_ne_undefined k)
    | some w => simp [hasField, hl]
  | str s => exact absurd h.symm (kindName_ne_undefined k)
  | num n => exact absurd h.symm (kindName_ne_undefined k)
  | bool b => exact absurd h.symm (kindName_ne_undefined k)
  | null => exact absurd h.symm (kindName_ne_undefined k)
  | undefined => exact absurd h.symm (kindName_ne_undefined k)

/-- The source guard `order` is exactly the spec contract `is_shape` at the
`UserOrder` shape. -/
theorem order_eq_is_shape (v : JSValue) : order v = is_shape v userOrderShape := by
  simp only [order, is_shape, userOrderShape, List.all_cons, List.all_nil,
    kindName, Bool.and_true, Bool.and_assoc]

/-- A value passing the guard `order` is a composite. -/
theorem order_object (v : JSValue) (h : order v = true) :
    ∃ isArr fields, v = JSValue.object isArr fields := by
  cases v with
  | object isArr fields => exact ⟨isArr, fields, rfl⟩
  | str s => exact Bool.noConfusion h
  | num n => exact Bool.noConfusion h
  | bool b => exact Bool.noConfusion h
  | null => exact Bool.noConfusion h
  | undefined => exact Bool.noConfusion h

/-- The faultable evaluation of the guard never throws and computes the
pure verdict. -/
theorem orderE_ok (v : JSValue) : orderE v = Except.ok (order v) := by
  cases v with
  | object isArr fields =>
    simp only [orderE, order, typeof, notNull, getFieldE]
    repeat' split <;> simp_all
  | str s => rfl
  | num n => rfl
  | bool b => rfl
  | null => rfl
  | undefined => rfl

/-- The characterization of `is_shape`: truth is equivalent to the
candidate being a non-null value of runtime type object whose required
fields are all present with matching kinds. -/
theorem is_shape_characterization (v : JSValue) (shape : RecordShape) :
    is_shape v shape = true ↔ typeof v = "object" ∧ notNull v = true ∧
      ∀ f ∈ shape, hasField v f.1 = true ∧ typeof (getField v f.1) = kindName f.2 := by
  cases v with
  | object isArr fields =>
    constructor
    · intro h
      have hall : ∀ f ∈ shape,
          (typeof (getField (JSValue.object isArr fields) f.1) == kindName f.2) = true :=
        List.all_eq_true.mp h
      refine ⟨rfl, rfl, fun f hf => ?_⟩
      have hk := beq_iff_eq.mp (hall f hf)
      exact ⟨hasField_of_kind _ _ _ hk, hk⟩
    · rintro ⟨-, -, hfl⟩
      exact List.all_eq_true.mpr fun f hf => beq_iff_eq.mpr (hfl f hf).2
  | str s =>
    constructor
    · intro h; exact Bool.noConfusion h
    · rintro ⟨hobj, -, -⟩
      exact absurd (show ("string" : String) = "object" from hobj) (by decide)
  | num n =>
    constructor
    · intro h; exact Bool.noConfusion h
    · rintro ⟨hobj, -, -⟩
      exact absurd (show ("number" : String) = "object" from hobj) (by decide)
  | bool b =>
    constructor
    · intro h; exact Bool.noConfusion h
    · rintro ⟨hobj, -, -⟩
      exact absurd (show ("boolean" : String) = "object" from hobj) (by decide)
  | null =>
    constructor
    · intro h; exact Bool.noConfusion h
    · rintro ⟨-, hnn, -⟩; exact Bool.noConfusion hnn
  | undefined =>
    constructor
    · intro h; exact Bool.noConfusion h
    · rintro ⟨hobj, -, -⟩
      exact absurd (show ("undefined" : String) = "object" from hobj) (by decide)

/-- The `isUser` guard is equivalent to the spec contract at the `User`
shape: the explicit `in` presence checks are subsumed by the `typeof`
checks. -/
theorem isUser_iff (v : JSValue) : isUser v = true ↔ is_shape v userShape = true := by
  cases v with
  | object isArr fields =>
    simp only [isUser, is_shape, userShape, List.all_cons, List.all_nil, kindName,
      Bool.and_true, Bool.and_eq_true, beq_iff_eq, notNull]
    constructor
    · rintro ⟨⟨⟨⟨⟨⟨hobj, hn1⟩, hn2⟩, he1⟩, he2⟩, ha1⟩, ha2⟩
      exact ⟨hobj, hn2, he2, ha2⟩
    · rintro ⟨hobj, hn2, he2, ha2⟩
      exact ⟨⟨⟨⟨⟨⟨hobj, hasField_of_kind _ _ Kind.str hn2⟩, hn2⟩,
        hasField_of_kind _ _ Kind.str he2⟩, he2⟩,
        hasField_of_kind _ _ Kind.num ha2⟩, ha2⟩
  | str s => constructor <;> (intro h; exact Bool.noConfusion h)
  | num n => constructor <;> (intro h; exact Bool.noConfusion h)
  | bool b => constructor <;> (intro h; exact Bool.noConfusion h)
  | null => constructor <;> (intro h; exact Bool.noConfusion h)
  | undefined => constructor <;> (intro h; exact Bool.noConfusion h)

/-- A property read threads the store back unchanged. -/
theorem readField_heap (h : Heap) (r : JSRef) (name : String) :
    (readField h r name).2 = h := by
  cases r with
  | addr a => cases hl : h.lookup a <;> simp [readField, hl]
  | str s => rfl
  | num n => rfl
  | bool b => rfl
  | null => rfl
  | undefined => rfl

/-- The required-field checks thread the store back unchanged. -/
theorem checkFieldsH_heap (obj : JSRef) :
    ∀ (checks : List (String × String)) (h : Heap),
      (checkFieldsH h obj checks).2 = h := by
  intro checks
  induction checks with
  | nil => intro h; rfl
  | cons c rest ih =>
    intro h
    simp only [checkFieldsH]
    have hs := readField_heap h obj c.1
    rcases hr : readField h obj c.1 with ⟨res, h1⟩
    rw [hr] at hs
    cases res with
    | error e => exact hs
    | ok v =>
      show (if (typeofR v == c.2) = true then checkFieldsH h1 obj rest
        else (Except.ok false, h1)).2 = h
      split
      · rw [ih h1]; exact hs
      · exact hs

/-! The claim theorems. -/

/-- C1 counterexample: `sampleArrayOrder` is an array value carrying every
required field of the `UserOrder` shape with the right kind, yet the
validator `order` returns `true` on it: the guard checks only
`typeof obj === "object"`, which is "object" for arrays, so the claim that
the validator returns `false` for every such array fails. -/
theorem c1_array_accepted_counterexample :
    isArrayValue sampleArrayOrder = true ∧
    is_shape sampleArrayOrder userOrderShape = true ∧
    order sampleArrayOrder = true :=
  ⟨rfl, rfl, rfl⟩

/-- C1 (amended): the shape validator (`order`, and likewise `isUser`)
returns true if and only if the candidate is non-null of runtime type
object (a record or an array: the code does not exclude arrays) and every
required field of the shape is present with a runtime kind exactly
matching the expected kind. -/
theorem c1_guard_characterization (v : JSValue) :
    (order v = true ↔ typeof v = "object" ∧ notNull v = true ∧
      ∀ f ∈ userOrderShape, hasField v f.1 = true ∧
        typeof (getField v f.1) = kindName f.2) ∧
    (isUser v = true ↔ typeof v = "object" ∧ notNull v = true ∧
      ∀ f ∈ userShape, hasField v f.1 = true ∧
        typeof (getField v f.1) = kindName f.2) := by
  constructor
  · rw [order_eq_is_shape]
    exact is_shape_characterization v userOrderShape
  · exact (isUser_iff v).trans (is_shape_characterization v userShape)

/-- C2: the two copies of the `UserOrder` validator disagree: on the
sample record whose `id` is the string "123" and whose other required
fields are well-kinded, the first copy returns true and the duplicate
(which checks `id` as a number) returns false; the first copy is the
coherent one, agreeing everywhere with the spec contract `is_shape` at the
`UserOrder` shape whose `id` kind is string. -/
theorem c2_duplicate_guard_disagrees :
    (order sampleOrder = true ∧ orderDup sampleOrder = false) ∧
    ∀ v : JSValue, order v = is_shape v userOrderShape :=
  ⟨⟨rfl, rfl⟩, order_eq_is_shape⟩

/-- C3: on the null input the validator returns false for any non-empty
shape, and its evaluation never dereferences a field of null: the
faultable evaluations return the boolean false rather than a fault. -/
theorem c3_null_rejected (shape : RecordShape) (hne : shape ≠ []) :
    is_shape JSValue.null shape = false ∧
    is_shapeE JSValue.null shape = Except.ok false ∧
    order JSValue.null = false ∧
    orderE JSValue.null = Except.ok false :=
  ⟨rfl, rfl, rfl, rfl⟩

/-- C3 witness: the null rejection at the concrete `UserOrder` shape. -/
theorem c3_null_rejected_witness :
    is_shape JSValue.null userOrderShape = false ∧
    is_shapeE JSValue.null userOrderShape = Except.ok false ∧
    order JSValue.null = false ∧
    orderE JSValue.null = Except.ok false :=
  c3_null_rejected userOrderShape (by decide)

/-- C4: any input on which at least one required field of the shape is
absent is rejected; at the `UserOrder` shape this is the rejection by the
source guard `order`. -/
theorem c4_missing_field_rejected (shape : RecordShape) (v : JSValue)
    (name : String) (k : Kind) (hmem : (name, k) ∈ shape)
    (habs : hasField v name = false) :
    is_shape v shape = false ∧ (shape = userOrderShape → order v = false) := by
  have main : is_shape v shape = false := by
    cases v with
    | object isArr fields =>
      have hl : fields.lookup name = none := by
        cases hl2 : fields.lookup name with
        | none => rfl
        | some w => simp [hasField, hl2] at habs
      have hfalse : ¬ (shape.all (fun f =>
          typeof (getField (JSValue.object isArr fields) f.1) == kindName f.2) = true) := by
        intro hall
        have hy : typeof (getField (JSValue.object isArr fields) name) = kindName k :=
          beq_iff_eq.mp (List.all_eq_true.mp hall (name, k) hmem)
        rw [show getField (JSValue.object isArr fields) name = JSValue.undefined by
          simp [getField, hl]] at hy
        exact kindName_ne_undefined k hy.symm
      exact Bool.eq_false_iff.mpr hfalse
    | str s => rfl
    | num n => rfl
    | bool b => rfl
    | null => rfl
    | undefined => rfl
  refine ⟨main, fun hsh => ?_⟩
  rw [order_eq_is_shape, ← hsh]
  exact main

/-- C4 witness: the record missing its `delivery` field is rejected. -/
theorem c4_missing_field_rejected_witness :
    is_shape sampleMissingDelivery userOrderShape = false ∧
    (userOrderShape = userOrderShape → order sampleMissingDelivery = false) :=
  c4_missing_field_rejected userOrderShape sampleMissingDelivery ("delivery")
    Kind.str (by decide) (by decide)

/-- C5: any input on which some required field is present but of the wrong
runtime kind is rejected; no coercion is performed, no kind name matching
another kind's values. -/
theorem c5_wrong_kind_rejected (shape : RecordShape) (v : JSValue)
    (name : String) (k : Kind) (hmem : (name, k) ∈ shape)
    (hpres : hasField v name = true)
    (hkind : typeof (getField v name) ≠ kindName k) :
    is_shape v shape = false ∧ (shape = userOrderShape → order v = false) := by
  have main : is_shape v shape = false := by
    cases v with
    | object isArr fields =>
      have hfalse : ¬ (shape.all (fun f =>
          typeof (getField (JSValue.object isArr fields) f.1) == kindName f.2) = true) := by
        intro hall
        exact hkind (beq_iff_eq.mp (List.all_eq_true.mp hall (name, k) hmem))
      exact Bool.eq_false_iff.mpr hfalse
    | str s => rfl
    | num n => rfl
    | bool b => rfl
    | null => rfl
    | undefined => rfl
  refine ⟨main, fun hsh => ?_⟩
  rw [order_eq_is_shape, ← hsh]
  exact main

/-- C5 witness: the record whose `price` holds the numeric string "100"
instead of a number is rejected (no coercion). -/
theorem c5_wrong_kind_rejected_witness :
    is_shape sampleStringPrice userOrderShape = false ∧
    (userOrderShape = userOrderShape → order sampleStringPrice = false) :=
  c5_wrong_kind_rejected userOrderShape sampleStringPrice ("price") Kind.num
    (by decide) (by decide) (by decide)

/-- C6: extra fields never affect the verdict: adding any field whose name
is outside the required set to a passing input keeps the validator
passing. -/
theorem c6_extra_field_preserved (shape : RecordShape) (v : JSValue)
    (name : String) (w : JSValue)
    (hpass : is_shape v shape = true)
    (hout : name ∉ shape.map Prod.fst) :
    is_shape (setField v name w) shape = true ∧
    (shape = userOrderShape → order (setField v name w) = true) := by
  have main : is_shape (setField v name w) shape = true := by
    cases v with
    | object isArr fields =>
      have hall := List.all_eq_true.mp (show (shape.all fun f =>
        typeof (getField (JSValue.object isArr fields) f.1) == kindName f.2) = true from hpass)
      show (shape.all fun f =>
        typeof (getField (JSValue.object isArr ((name, w) :: fields)) f.1) == kindName f.2) = true
      refine List.all_eq_true.mpr fun f hf => ?_
      have hne : (f.1 == name) = false := by
        refine beq_eq_false_iff_ne.mpr fun hEq => hout ?_
        rw [← hEq]
        exact List.mem_map_of_mem Prod.fst hf
      have hget : getField (JSValue.object isArr ((name, w) :: fields)) f.1 =
          getField (JSValue.object isArr fields) f.1 := by
        simp [getField, List.lookup, hne]
      rw [hget]
      exact hall f hf
    | str s => exact Bool.noConfusion hpass
    | num n => exact Bool.noConfusion hpass
    | bool b => exact Bool.noConfusion hpass
    | null => exact Bool.noConfusion hpass
    | undefined => exact Bool.noConfusion hpass
  refine ⟨main, fun hsh => ?_⟩
  rw [order_eq_is_shape, ← hsh]
  exact main

/-- C6 witness: adding a `note` field to the passing sample keeps it
passing. -/
theorem c6_extra_field_preserved_witness :
    is_shape (setField sampleOrder ("note") (JSValue.bool true)) userOrderShape = true ∧
    (userOrderShape = userOrderShape →
      order (setField sampleOrder ("note") (JSValue.bool true)) = true) :=
  c6_extra_field_preserved userOrderShape sampleOrder ("note") (JSValue.bool true)
    (by decide) (by decide)

/-- C7: for every input the validator never raises a fault and produces
exactly one boolean result: its faultable evaluation returns the single
boolean verdict of the pure guard. -/
theorem c7_single_boolean_no_fault (v : JSValue) :
    ∃ b : Bool, orderE v = Except.ok b ∧ order v = b :=
  ⟨order v, orderE_ok v, rfl⟩

/-- C8: the validator is a pure, read-only inspection: its run over the
store-threading semantics returns the store unchanged, so the candidate
and all of its fields are left intact and no other state is mutated. -/
theorem c8_validator_leaves_store (h : Heap) (obj : JSRef) :
    (orderH h obj).2 = h := by
  unfold orderH
  split
  · split
    · exact checkFieldsH_heap obj _ h
    · rfl
  · rfl

/-- C9: `orderDelivery` is total and always returns a string: its
faultable evaluation never throws and returns exactly the string of the
pure function, which is the delivery-description string precisely when the
guard `order` accepts the input and the fallback string otherwise. -/
theorem c9_orderDelivery_total (item : JSValue) :
    orderDeliveryE item = Except.ok (JSValue.str (orderDelivery item)) ∧
    (order item = true → orderDelivery item =
      "Delivering " ++ jsToString (getField item ("id")) ++ " of type: " ++
        jsToString (getField item ("type")) ++ " with Delivery " ++
        jsToString (getField item ("delivery"))) ∧
    (order item = false → orderDelivery item =
      "Cannot deliver: " ++ jsToString item) := by
  refine ⟨?_, ?_, ?_⟩
  · rw [orderDeliveryE, orderE_ok]
    cases hg : order item with
    | false => simp [orderDelivery, hg]
    | true =>
      obtain ⟨isArr, fields, rfl⟩ := order_object item hg
      simp [orderDelivery, hg, getFieldE]
  · intro hg
    rw [orderDelivery, if_pos hg]
  · intro hg
    rw [orderDelivery, if_neg (by simp [hg])]

/-- C10: the duplicate `isString` is non-terminating: under any amount of
fuel its evaluation never returns, because it calls itself unchanged;
whereas the exported `isString` decides in one step whether the input is a
string value. -/
theorem c10_isStringDup_diverges :
    (∀ (fuel : Nat) (v : JSValue), isStringDup fuel v = none) ∧
    (∀ v : JSValue, isString v = true ↔ ∃ s, v = JSValue.str s) := by
  constructor
  · intro fuel
    induction fuel with
    | zero => intro v; rfl
    | succ n ih => intro v; exact ih v
  · intro v
    cases v with
    | str s =>
      constructor
      · intro h; exact ⟨s, rfl⟩
      · intro h; rfl
    | num n =>
      constructor
      · intro h; exact Bool.noConfusion h
      · rintro ⟨s, hs⟩; exact JSValue.noConfusion hs
    | bool b =>
      constructor
      · intro h; exact Bool.noConfusion h
      · rintro ⟨s, hs⟩; exact JSValue.noConfusion hs
    | null =>
      constructor
      · intro h; exact Bool.noConfusion h
      · rintro ⟨s, hs⟩; exact JSValue.noConfusion hs
    | undefined =>
      constructor
      · intro h; exact Bool.noConfusion h
      · rintro ⟨s, hs⟩; exact JSValue.noConfusion hs
    | object isArr fields =>
      constructor
      · intro h; exact Bool.noConfusion h
      · rintro ⟨s, hs⟩; exact JSValue.noConfusion hs

end TsGuide
